import Mathlib

/-!
Verification development for the jobly repository: two relational resource
managers (`Company`, `Job`) over a backing store, a shared partial-update
clause builder (`sqlForPartialUpdate` in helpers/sql.js), and a per-model
filter-clause builder (`findFiltered` in models/company.js and
models/job.js).

The store (PostgreSQL, reached through db.query) is modelled by an explicit
state `DBState` holding the two tables as lists of rows in insertion order,
plus the serial counter for jobs.id.  Each manager operation is translated
from the JavaScript source into a Lean function; operations that issue a
mutating statement return the new state alongside the result, operations
that only SELECT are read-only functions of the state.  A thrown
`BadRequestError` / `NotFoundError` becomes `Except.error`; a store-level
failure (for instance an invalid query text, as produced by the
empty-filter WHERE clause) becomes `Err.storeError`.
-/

/-- SQL / JavaScript values that flow through the managers: strings,
integers, numerics (equity), booleans, and SQL NULL. -/
inductive Value where
  | str (s : String)
  | int (n : Int)
  | rat (q : Rat)
  | boolV (b : Bool)
  | vnull
deriving Repr, DecidableEq

/-- The error taxonomy of expressError as used by the models:
`badRequest` and `notFound` carry the message built at the throw site;
`storeError` stands for an uncaught store-level failure (e.g. the store
rejecting an invalid query text), which the models do not catch. -/
inductive Err where
  | badRequest (msg : String)
  | notFound (msg : String)
  | storeError
deriving Repr, DecidableEq

/-- A row of the companies table:
companies(handle PK, name, description, num_employees, logo_url),
with num_employees and logo_url nullable. -/
structure CompanyRec where
  handle : String
  name : String
  description : String
  numEmployees : Option Int
  logoUrl : Option String
deriving Repr, DecidableEq

/-- A row of the jobs table:
jobs(id serial PK, title, salary, equity, company_handle),
with salary and equity nullable; equity is a numeric in [0,1], modelled
as a rational. -/
structure JobRec where
  id : Nat
  title : String
  salary : Option Int
  equity : Option Rat
  companyHandle : String
deriving Repr, DecidableEq

/-- The backing store: both tables in row (insertion) order, plus the
next value of the jobs.id serial sequence. -/
structure DBState where
  companies : List CompanyRec
  jobs : List JobRec
  nextJobId : Nat
deriving Repr, DecidableEq

/-! ## helpers/sql.js : sqlForPartialUpdate -/

/-- The column-name translation `jsToSql[colName] || colName` from
sqlForPartialUpdate: look the JS field name up in the alias mapping and
fall back to the field name itself when absent; JavaScript `||` also
falls back when the alias is the empty string (a falsy value). -/
def storageName (jsToSql : List (String × String)) (colName : String) : String :=
  match jsToSql.lookup colName with
  | some s => if s = "" then colName else s
  | none => colName

/-- The output of sqlForPartialUpdate: the SET-clause text and the
parallel ordered list of parameter values. -/
structure SqlUpdate where
  setCols : String
  values : List Value
deriving Repr, DecidableEq

/-- One assignment fragment `"<storage_name>"=$<idx+1>` as built by
`keys.map((colName, idx) => ...)` in sqlForPartialUpdate. -/
def assignFragment (jsToSql : List (String × String)) (idx : Nat) (colName : String) : String :=
  "\"" ++ storageName jsToSql colName ++ "\"=$" ++ toString (idx + 1)

/-- helpers/sql.js sqlForPartialUpdate: the data object is modelled as an
association list in key iteration order (Object.keys / Object.values
iterate in the same order).  Throws BadRequestError "No data" when the
mapping is empty; otherwise returns the comma-joined assignment fragments
and the ordered value list. -/
def sqlForPartialUpdate (dataToUpdate : List (String × Value))
    (jsToSql : List (String × String)) : Except Err SqlUpdate :=
  if dataToUpdate.isEmpty then .error (.badRequest "No data")
  else
    let cols := dataToUpdate.mapIdx (fun idx kv => assignFragment jsToSql idx kv.1)
    .ok { setCols := String.intercalate ", " cols,
          values := dataToUpdate.map (fun kv => kv.2) }

/-! ## ILIKE '%pat%' matching (case-insensitive substring) -/

/-- Boolean prefix test on character lists. -/
def strStarts : List Char → List Char → Bool
  | [], _ => true
  | _ :: _, [] => false
  | p :: ps, h :: hs => p == h && strStarts ps hs

/-- Boolean substring test on character lists. -/
def containsSub (pat : List Char) : List Char → Bool
  | [] => pat.isEmpty
  | h :: t => strStarts pat (h :: t) || containsSub pat t

/-- SQL `col ILIKE '%pat%'`: case-insensitive substring containment. -/
def ilikeContains (pat s : String) : Bool :=
  containsSub pat.toLower.toList s.toLower.toList

/-! ## models/company.js -/

/-- The BadRequestError thrown by Company.create on an existing handle;
the spec's DuplicateError is this specialization of BadRequestError. -/
def DuplicateError (handle : String) : Err :=
  .badRequest ("Duplicate company: " ++ handle)

/-- Company.create: SELECT the handle first; if a row exists, throw the
duplicate BadRequestError; otherwise INSERT the row and return it
(RETURNING gives back exactly the inserted fields). -/
def Company.create (data : CompanyRec) (s : DBState) :
    Except Err CompanyRec × DBState :=
  if s.companies.any (fun c => c.handle == data.handle) then
    (.error (DuplicateError data.handle), s)
  else
    (.ok data, { s with companies := s.companies ++ [data] })

/-- Company.findAll: SELECT ... FROM companies ORDER BY name. -/
def Company.findAll (s : DBState) : List CompanyRec :=
  List.insertionSort (fun a b => a.name ≤ b.name) s.companies

/-- A WHERE-clause fragment pushed into paramArr by Company.findFiltered:
`name ILIKE '%v%'`, `num_employees >= n`, or `num_employees <= n`. -/
inductive CClause where
  | nameLike (v : String)
  | minEmp (n : Int)
  | maxEmp (n : Int)
deriving Repr, DecidableEq

/-- The truth value of one company filter clause at a row.  SQL comparisons
against a NULL num_employees are NULL, so such rows are not selected. -/
def CClause.eval (c : CompanyRec) : CClause → Bool
  | .nameLike v => ilikeContains v c.name
  | .minEmp n => match c.numEmployees with
    | some k => decide (n ≤ k)
    | none => false
  | .maxEmp n => match c.numEmployees with
    | some k => decide (k ≤ n)
    | none => false

/-- The filter mapping accepted by Company.findFiltered; a key is present
exactly when the option is some. -/
structure CompanyFilter where
  name : Option String
  minEmployees : Option Int
  maxEmployees : Option Int
deriving Repr, DecidableEq

/-- One `if (Object.hasOwn(filterParams, key))` step of the clause
builders: push one clause when the key is present, none otherwise. -/
def optClause {α β : Type} (o : Option α) (mk : α → β) : List β :=
  match o with
  | some v => [mk v]
  | none => []

/-- The paramArr built by Company.findFiltered, in push order:
name, then minEmployees, then maxEmployees. -/
def companyClauses (f : CompanyFilter) : List CClause :=
  optClause f.name .nameLike ++
  optClause f.minEmployees .minEmp ++
  optClause f.maxEmployees .maxEmp

/-- A filter mapping holding the keys of both argument mappings, for
stating how two filter keys combine; meaningful when the present-key sets
are disjoint. -/
def mergeCF (f g : CompanyFilter) : CompanyFilter :=
  { name := f.name <|> g.name,
    minEmployees := f.minEmployees <|> g.minEmployees,
    maxEmployees := f.maxEmployees <|> g.maxEmployees }

/-- No key is present in both filter mappings. -/
def disjointCF (f g : CompanyFilter) : Prop :=
  (f.name = none ∨ g.name = none) ∧
  (f.minEmployees = none ∨ g.minEmployees = none) ∧
  (f.maxEmployees = none ∨ g.maxEmployees = none)

/-- Company.findFiltered: join the clauses with AND into the WHERE text and
run the query ordered by name.  When paramArr is empty the query text is
`... WHERE  ORDER BY name` — an invalid statement the store rejects, which
surfaces as an uncaught store-level error. -/
def Company.findFiltered (f : CompanyFilter) (s : DBState) :
    Except Err (List CompanyRec) :=
  let ps := companyClauses f
  if ps.isEmpty then .error .storeError
  else .ok (List.insertionSort (fun a b => a.name ≤ b.name)
    (s.companies.filter (fun c => ps.all (fun p => p.eval c))))

/-- The shape returned by Company.get: the company row plus the list of its
jobs (always a list, never null). -/
structure CompanyWithJobs where
  handle : String
  name : String
  description : String
  numEmployees : Option Int
  logoUrl : Option String
  jobs : List JobRec
deriving Repr, DecidableEq

/-- The rows produced by Company.get's query:
companies LEFT JOIN jobs ON companies.handle = jobs.company_handle
WHERE handle = $1.  A company with no jobs contributes one row whose job
columns are all NULL (`none`); a company with jobs contributes one row per
job. -/
def companyJoinRows (handle : String) (s : DBState) :
    List (CompanyRec × Option JobRec) :=
  (s.companies.filter (fun c => c.handle == handle)).flatMap (fun c =>
    let js := s.jobs.filter (fun j => j.companyHandle == c.handle)
    if js.isEmpty then [(c, none)] else js.map (fun j => (c, some j)))

/-- The all-null job columns of a LEFT JOIN row destructured into a job
object by Company.get's map.  The map only runs when the first row's
jobs.id is non-null, and handle is a primary key, so under the table's key
uniqueness this placeholder is never selected. -/
def nullJobRow : JobRec :=
  { id := 0, title := "", salary := none, equity := none, companyHandle := "" }

/-- Company.get: rows[0] missing means NotFoundError; otherwise take the
company fields from the first row, and when the first row's jobs.id is not
null map every row to its job object; otherwise the jobs list stays []. -/
def Company.get (handle : String) (s : DBState) : Except Err CompanyWithJobs :=
  match companyJoinRows handle s with
  | [] => .error (.notFound ("No company: " ++ handle))
  | (c, oj) :: rest =>
    let jobs : List JobRec :=
      match oj with
      | some _ => ((c, oj) :: rest).map (fun r => r.2.getD nullJobRow)
      | none => []
    .ok { handle := handle, name := c.name, description := c.description,
          numEmployees := c.numEmployees, logoUrl := c.logoUrl, jobs := jobs }

/-- The jsToSql alias mapping passed by Company.update to
sqlForPartialUpdate. -/
def companyJsToSql : List (String × String) :=
  [("numEmployees", "num_employees"), ("logoUrl", "logo_url")]

/-- Effect of one SET assignment `"<col>"=<value>` on a companies row.
The catch-all branches correspond to statements the store would reject
(unknown column or mistyped value); the update theorems restrict the data
to the well-typed updatable fields, under which they are never reached. -/
def applyColC (c : CompanyRec) (col : String) (v : Value) : CompanyRec :=
  match col, v with
  | "name", .str s => { c with name := s }
  | "description", .str s => { c with description := s }
  | "num_employees", .int n => { c with numEmployees := some n }
  | "num_employees", .vnull => { c with numEmployees := none }
  | "logo_url", .str s => { c with logoUrl := some s }
  | "logo_url", .vnull => { c with logoUrl := none }
  | _, _ => c

/-- Apply the whole SET clause built by sqlForPartialUpdate to one
companies row: each data entry assigns storageName(key) := value, in data
order. -/
def applyUpdateC (data : List (String × Value)) (c : CompanyRec) : CompanyRec :=
  data.foldl (fun r kv => applyColC r (storageName companyJsToSql kv.1) kv.2) c

/-- Company.update: build the SET clause with sqlForPartialUpdate (whose
BadRequestError on empty data propagates), run
UPDATE companies SET ... WHERE handle = $n RETURNING ...; rows[0] missing
means NotFoundError; otherwise every row with that handle is updated and
the first updated row is returned. -/
def Company.update (handle : String) (data : List (String × Value))
    (s : DBState) : Except Err CompanyRec × DBState :=
  match sqlForPartialUpdate data companyJsToSql with
  | .error e => (.error e, s)
  | .ok _ =>
    match s.companies.find? (fun c => c.handle == handle) with
    | none => (.error (.notFound ("No company: " ++ handle)), s)
    | some c =>
      let updated := s.companies.map
        (fun x => if x.handle == handle then applyUpdateC data x else x)
      (.ok (applyUpdateC data c), { s with companies := updated })

/-- Company.remove: DELETE ... WHERE handle = $1 RETURNING handle; rows[0]
missing means NotFoundError.  (Whether the DELETE cascades to referencing
jobs is decided by the schema, which is outside the model sources; no
property here exercises a successful delete of a company that has jobs.) -/
def Company.remove (handle : String) (s : DBState) :
    Except Err Unit × DBState :=
  if s.companies.any (fun c => c.handle == handle) then
    (.ok (), { s with companies :=
      s.companies.filter (fun c => !(c.handle == handle)) })
  else
    (.error (.notFound ("No company: " ++ handle)), s)

/-! ## models/job.js -/

/-- Job.create: SELECT the company handle first; if no row exists, throw
BadRequestError; otherwise INSERT the job (the store assigns the next
serial id) and return the row RETURNING gives back. -/
def Job.create (title : String) (salary : Option Int) (equity : Option Rat)
    (companyHandle : String) (s : DBState) : Except Err JobRec × DBState :=
  if s.companies.any (fun c => c.handle == companyHandle) then
    let j : JobRec := { id := s.nextJobId, title := title, salary := salary,
                        equity := equity, companyHandle := companyHandle }
    (.ok j, { s with jobs := s.jobs ++ [j], nextJobId := s.nextJobId + 1 })
  else
    (.error (.badRequest ("No company with " ++ companyHandle)), s)

/-- Job.findAll: SELECT ... FROM jobs ORDER BY id. -/
def Job.findAll (s : DBState) : List JobRec :=
  List.insertionSort (fun a b => a.id ≤ b.id) s.jobs

/-- A WHERE-clause fragment pushed into paramArr by Job.findFiltered:
`title ILIKE '%v%'`, `salary >= n`, or `equity > 0`. -/
inductive JClause where
  | titleLike (v : String)
  | minSal (n : Int)
  | equityPos
deriving Repr, DecidableEq

/-- The truth value of one job filter clause at a row.  SQL comparisons
against a NULL salary or equity are NULL, so such rows are not selected. -/
def JClause.eval (j : JobRec) : JClause → Bool
  | .titleLike v => ilikeContains v j.title
  | .minSal n => match j.salary with
    | some k => decide (n ≤ k)
    | none => false
  | .equityPos => match j.equity with
    | some e => decide (0 < e)
    | none => false

/-- The filter mapping accepted by Job.findFiltered; a key is present
exactly when the option is some. -/
structure JobFilter where
  title : Option String
  minSalary : Option Int
  hasEquity : Option Bool
deriving Repr, DecidableEq

/-- The hasEquity step of Job.findFiltered's clause builder: the clause is
pushed only when the key is present with value true; false contributes
nothing. -/
def equityClause (o : Option Bool) : List JClause :=
  match o with
  | some true => [.equityPos]
  | _ => []

/-- The paramArr built by Job.findFiltered, in push order: title, then
minSalary, then hasEquity. -/
def jobClauses (f : JobFilter) : List JClause :=
  optClause f.title .titleLike ++
  optClause f.minSalary .minSal ++
  equityClause f.hasEquity

/-- A filter mapping holding the keys of both argument mappings;
meaningful when the present-key sets are disjoint. -/
def mergeJF (f g : JobFilter) : JobFilter :=
  { title := f.title <|> g.title,
    minSalary := f.minSalary <|> g.minSalary,
    hasEquity := f.hasEquity <|> g.hasEquity }

/-- No key is present in both filter mappings. -/
def disjointJF (f g : JobFilter) : Prop :=
  (f.title = none ∨ g.title = none) ∧
  (f.minSalary = none ∨ g.minSalary = none) ∧
  (f.hasEquity = none ∨ g.hasEquity = none)

/-- Job.findFiltered: join the clauses with AND into the WHERE text and run
the query ordered by id.  When paramArr is empty the query text is
`... WHERE  ORDER BY id` — an invalid statement the store rejects, which
surfaces as an uncaught store-level error. -/
def Job.findFiltered (f : JobFilter) (s : DBState) :
    Except Err (List JobRec) :=
  let ps := jobClauses f
  if ps.isEmpty then .error .storeError
  else .ok (List.insertionSort (fun a b => a.id ≤ b.id)
    (s.jobs.filter (fun j => ps.all (fun p => p.eval j))))

/-- Job.get: SELECT ... WHERE id = $1; rows[0] missing means
NotFoundError, otherwise the first matching row is returned. -/
def Job.get (id : Nat) (s : DBState) : Except Err JobRec :=
  match s.jobs.find? (fun j => j.id == id) with
  | some j => .ok j
  | none => .error (.notFound ("No job: " ++ toString id))

/-- Effect of one SET assignment `"<col>"=<value>` on a jobs row.  The
catch-all branches correspond to statements the store would reject
(unknown column or mistyped value); the update theorems restrict the data
to the well-typed updatable fields, under which they are never reached. -/
def applyColJ (j : JobRec) (col : String) (v : Value) : JobRec :=
  match col, v with
  | "title", .str s => { j with title := s }
  | "salary", .int n => { j with salary := some n }
  | "salary", .vnull => { j with salary := none }
  | "equity", .rat q => { j with equity := some q }
  | "equity", .vnull => { j with equity := none }
  | _, _ => j

/-- Apply the whole SET clause built by sqlForPartialUpdate to one jobs
row; Job.update passes the empty jsToSql mapping, so every column keeps
its JS field name. -/
def applyUpdateJ (data : List (String × Value)) (j : JobRec) : JobRec :=
  data.foldl (fun r kv => applyColJ r (storageName [] kv.1) kv.2) j

/-- Job.update: build the SET clause with sqlForPartialUpdate (whose
BadRequestError on empty data propagates), run
UPDATE jobs SET ... WHERE id = $n RETURNING ...; rows[0] missing means
NotFoundError; otherwise every row with that id is updated and the first
updated row is returned. -/
def Job.update (id : Nat) (data : List (String × Value)) (s : DBState) :
    Except Err JobRec × DBState :=
  match sqlForPartialUpdate data [] with
  | .error e => (.error e, s)
  | .ok _ =>
    match s.jobs.find? (fun j => j.id == id) with
    | none => (.error (.notFound ("No job: " ++ toString id)), s)
    | some j =>
      let updated := s.jobs.map
        (fun x => if x.id == id then applyUpdateJ data x else x)
      (.ok (applyUpdateJ data j), { s with jobs := updated })

/-- Job.remove: DELETE ... WHERE id = $1 RETURNING id; rows[0] missing
means NotFoundError. -/
def Job.remove (id : Nat) (s : DBState) : Except Err Unit × DBState :=
  if s.jobs.any (fun j => j.id == id) then
    (.ok (), { s with jobs := s.jobs.filter (fun j => !(j.id == id)) })
  else
    (.error (.notFound ("No job: " ++ toString id)), s)

/-! ## Well-formedness of stored tables and of update data -/

/-- The primary-key invariants of the store: company handles are pairwise
distinct and job ids are pairwise distinct. -/
def WfState (s : DBState) : Prop :=
  s.companies.Pairwise (fun a b => a.handle ≠ b.handle) ∧
  s.jobs.Pairwise (fun a b => a.id ≠ b.id)

/-- One update entry drawn from the updatable company fields with a value
of the column's type (`numEmployees` and `logoUrl` are nullable). -/
def validCompanyKV : String × Value → Bool
  | ("name", .str _) => true
  | ("description", .str _) => true
  | ("numEmployees", .int _) => true
  | ("numEmployees", .vnull) => true
  | ("logoUrl", .str _) => true
  | ("logoUrl", .vnull) => true
  | _ => false

/-- One update entry drawn from the updatable job fields with a value of
the column's type (`salary` and `equity` are nullable). -/
def validJobKV : String × Value → Bool
  | ("title", .str _) => true
  | ("salary", .int _) => true
  | ("salary", .vnull) => true
  | ("equity", .rat _) => true
  | ("equity", .vnull) => true
  | _ => false

/-! ## Claims -/

/-- C2: for every non-empty field mapping and every alias mapping,
sqlForPartialUpdate returns one assignment fragment per field in the
iteration order of the input mapping, each of the form
`"<storage_name>"=$<k>` with placeholders numbered sequentially from $1,
joined into the SET text, together with the parallel ordered list of the
fields' values; for the empty field mapping it fails with
BadRequestError. -/
theorem sqlForPartialUpdate_correct (data : List (String × Value))
    (jsToSql : List (String × String)) :
    (data = [] →
      sqlForPartialUpdate data jsToSql = .error (.badRequest "No data")) ∧
    (data ≠ [] → ∃ cols : List String,
      sqlForPartialUpdate data jsToSql =
        .ok { setCols := String.intercalate ", " cols,
              values := data.map (fun kv => kv.2) } ∧
      cols.length = data.length ∧
      ∀ i (hi : i < data.length), ∀ hc : i < cols.length,
        cols.get ⟨i, hc⟩ =
          "\"" ++ storageName jsToSql (data.get ⟨i, hi⟩).1 ++ "\"=$" ++
            toString (i + 1)) := by
  constructor
  · intro h
    subst h
    rfl
  · intro h
    refine ⟨data.mapIdx (fun idx kv => assignFragment jsToSql idx kv.1), ?_, ?_, ?_⟩
    · rw [sqlForPartialUpdate, if_neg (by simpa [List.isEmpty_iff] using h)]
    · exact List.length_mapIdx
    · intro i hi hc
      rw [List.get_mapIdx _ _ i hi]
      rfl

/-- Witness for C2 at a concrete mapping with an alias
(numEmployees ↦ num_employees) and without one. -/
theorem sqlForPartialUpdate_correct_witness :
    ([("numEmployees", Value.int 3), ("name", Value.str "Acme")] ≠
      ([] : List (String × Value))) ∧
    (∃ cols : List String,
      sqlForPartialUpdate [("numEmployees", Value.int 3), ("name", Value.str "Acme")]
          companyJsToSql =
        .ok { setCols := String.intercalate ", " cols,
              values := [("numEmployees", Value.int 3),
                ("name", Value.str "Acme")].map (fun kv => kv.2) } ∧
      cols.length = [("numEmployees", Value.int 3), ("name", Value.str "Acme")].length ∧
      ∀ i (hi : i < [("numEmployees", Value.int 3),
          ("name", Value.str "Acme")].length), ∀ hc : i < cols.length,
        cols.get ⟨i, hc⟩ =
          "\"" ++ storageName companyJsToSql
              ([("numEmployees", Value.int 3),
                ("name", Value.str "Acme")].get ⟨i, hi⟩).1 ++ "\"=$" ++
            toString (i + 1)) :=
  ⟨by decide,
   (sqlForPartialUpdate_correct
      [("numEmployees", Value.int 3), ("name", Value.str "Acme")]
      companyJsToSql).2 (by decide)⟩

/-- A concrete store used to instantiate claims: one company "c1" with one
job. -/
def sampleCompany : CompanyRec :=
  { handle := "c1", name := "Acme", description := "maker",
    numEmployees := some 10, logoUrl := none }

/-- A concrete job of sampleCompany with positive equity. -/
def sampleJob : JobRec :=
  { id := 1, title := "j1", salary := some 5, equity := some 1,
    companyHandle := "c1" }

/-- The concrete store holding sampleCompany and sampleJob. -/
def sampleState : DBState :=
  { companies := [sampleCompany], jobs := [sampleJob], nextJobId := 2 }

/-- C1 (documents the empty-filter defect): with no recognized filter key,
paramArr stays empty, so both managers interpolate an empty condition into
`WHERE ` and the store rejects the statement — the call surfaces a
store-level error instead of returning findAll()'s list as the claim
requires. -/
theorem findFiltered_empty_filter_store_error (s : DBState) :
    Company.findFiltered
        { name := none, minEmployees := none, maxEmployees := none } s =
      .error .storeError ∧
    Job.findFiltered
        { title := none, minSalary := none, hasEquity := none } s =
      .error .storeError :=
  ⟨rfl, rfl⟩

/-- C4: Company.create fails with the duplicate BadRequestError (the
spec's DuplicateError) exactly when the handle is already present; when it
is not, the row is inserted and returned in full. -/
theorem company_create_correct (data : CompanyRec) (s : DBState) :
    ((∃ c ∈ s.companies, c.handle = data.handle) →
      Company.create data s = (.error (DuplicateError data.handle), s)) ∧
    ((∀ c ∈ s.companies, c.handle ≠ data.handle) →
      Company.create data s =
        (.ok data, { s with companies := s.companies ++ [data] })) := by
  constructor <;> intro h
  · have hany : s.companies.any (fun c => c.handle == data.handle) = true := by
      simpa [List.any_eq_true] using h
    simp [Company.create, hany]
  · have hany : s.companies.any (fun c => c.handle == data.handle) = false := by
      simp only [List.any_eq_false, beq_iff_eq]
      intro c hc
      exact h c hc
    simp [Company.create, hany]

/-- Witness for C4: creating "c1" again is rejected as a duplicate, and
creating a fresh handle "c2" inserts and returns the record. -/
theorem company_create_correct_witness :
    Company.create sampleCompany sampleState =
      (.error (DuplicateError sampleCompany.handle), sampleState) ∧
    Company.create
        { handle := "c2", name := "Bmee", description := "", numEmployees := none,
          logoUrl := none } sampleState =
      (.ok { handle := "c2", name := "Bmee", description := "",
             numEmployees := none, logoUrl := none },
       { sampleState with companies := sampleState.companies ++
          [{ handle := "c2", name := "Bmee", description := "",
             numEmployees := none, logoUrl := none }] }) :=
  ⟨(company_create_correct sampleCompany sampleState).1 (by decide),
   (company_create_correct _ sampleState).2 (by decide)⟩

/-- C5: Job.create fails with BadRequestError when companyHandle matches
no company, and the state — in particular the jobs table — is returned
unchanged; when the company exists it inserts the job with the
store-assigned serial id and returns it. -/
theorem job_create_correct (title : String) (salary : Option Int)
    (equity : Option Rat) (ch : String) (s : DBState) :
    ((∀ c ∈ s.companies, c.handle ≠ ch) →
      Job.create title salary equity ch s =
        (.error (.badRequest ("No company with " ++ ch)), s)) ∧
    ((∃ c ∈ s.companies, c.handle = ch) →
      Job.create title salary equity ch s =
        (.ok { id := s.nextJobId, title := title, salary := salary,
               equity := equity, companyHandle := ch },
         { s with
            jobs := s.jobs ++
              [{ id := s.nextJobId, title := title, salary := salary,
                 equity := equity, companyHandle := ch }],
            nextJobId := s.nextJobId + 1 })) := by
  constructor <;> intro h
  · have hany : s.companies.any (fun c => c.handle == ch) = false := by
      simp only [List.any_eq_false, beq_iff_eq]
      intro c hc
      exact h c hc
    simp [Job.create, hany]
  · have hany : s.companies.any (fun c => c.handle == ch) = true := by
      simpa [List.any_eq_true] using h
    simp [Job.create, hany]

/-- Witness for C5: creating a job under the absent handle "ghost" fails
and leaves the store untouched; creating one under "c1" returns the job
with the next serial id. -/
theorem job_create_correct_witness :
    Job.create "j2" (some 7) none "ghost" sampleState =
      (.error (.badRequest ("No company with " ++ "ghost")), sampleState) ∧
    Job.create "j2" (some 7) none "c1" sampleState =
      (.ok { id := sampleState.nextJobId, title := "j2", salary := some 7,
             equity := none, companyHandle := "c1" },
       { sampleState with
          jobs := sampleState.jobs ++
            [{ id := sampleState.nextJobId, title := "j2", salary := some 7,
               equity := none, companyHandle := "c1" }],
          nextJobId := sampleState.nextJobId + 1 }) :=
  ⟨(job_create_correct "j2" (some 7) none "ghost" sampleState).1 (by decide),
   (job_create_correct "j2" (some 7) none "c1" sampleState).2 (by decide)⟩

/-- C6: in Job.findFiltered, hasEquity=false pushes no clause, so the call
is indistinguishable from the same filter without the key (down to the
empty-filter error behaviour); hasEquity=true pushes `equity > 0`, so
every returned job has positive (hence non-null) equity. -/
theorem job_findFiltered_hasEquity (f : JobFilter) (s : DBState) :
    Job.findFiltered { f with hasEquity := some false } s =
      Job.findFiltered { f with hasEquity := none } s ∧
    (∀ l, Job.findFiltered { f with hasEquity := some true } s = .ok l →
      ∀ j ∈ l, ∃ e, j.equity = some e ∧ 0 < e) := by
  refine ⟨rfl, ?_⟩
  intro l hl j hj
  have hne : (jobClauses { f with hasEquity := some true }).isEmpty = false := by
    simp [jobClauses, equityClause, List.isEmpty_iff]
  rw [Job.findFiltered] at hl
  simp only [hne, Bool.false_eq_true, if_false] at hl
  have hXl := Except.ok.inj hl
  subst hXl
  have hjmem : j ∈ (s.jobs.filter (fun x =>
      (jobClauses { f with hasEquity := some true }).all
        (fun p => p.eval x))) :=
    (List.mem_insertionSort _).1 hj
  have hall := (List.mem_filter.1 hjmem).2
  have heq : JClause.eval j .equityPos = true := by
    have hmem : JClause.equityPos ∈ jobClauses { f with hasEquity := some true } := by
      simp [jobClauses, equityClause]
    exact List.all_eq_true.1 hall _ hmem
  rw [JClause.eval] at heq
  cases he : j.equity with
  | none => rw [he] at heq; cases heq
  | some e =>
    rw [he] at heq
    exact ⟨e, rfl, by simpa using heq⟩

/-- Witness for C6: on the sample store, filtering with hasEquity=true
returns exactly the job with positive equity, and each returned job indeed
has equity > 0. -/
theorem job_findFiltered_hasEquity_witness :
    Job.findFiltered
        { title := none, minSalary := none, hasEquity := some true }
        sampleState = .ok [sampleJob] ∧
    ∀ j ∈ [sampleJob], ∃ e, j.equity = some e ∧ 0 < e :=
  ⟨rfl,
   (job_findFiltered_hasEquity
      { title := none, minSalary := none, hasEquity := none } sampleState).2
     [sampleJob] rfl⟩

/-- In a table whose key column is pairwise distinct, filtering on the key
of a stored row selects exactly that row. -/
theorem filter_key_eq_of_pairwise {α κ : Type} [DecidableEq κ] (key : α → κ)
    {l : List α} {c : α} (hp : l.Pairwise (fun a b => key a ≠ key b))
    (hc : c ∈ l) : l.filter (fun x => key x == key c) = [c] := by
  induction l with
  | nil => cases hc
  | cons a t ih =>
    have hp' := List.pairwise_cons.1 hp
    rcases List.mem_cons.1 hc with rfl | hct
    · rw [List.filter_cons_of_pos (by simp)]
      have hnil : t.filter (fun x => key x == key c) = [] := by
        rw [List.filter_eq_nil_iff]
        intro x hx hxc
        exact hp'.1 x hx (beq_iff_eq.1 hxc).symm
      rw [hnil]
    · have hne : key a ≠ key c := hp'.1 c hct
      rw [List.filter_cons_of_neg (by simpa using hne)]
      exact ih hp'.2 hct

/-- In a table whose key column is pairwise distinct, looking up the key of
a stored row finds exactly that row. -/
theorem find_key_eq_of_pairwise {α κ : Type} [DecidableEq κ] (key : α → κ)
    {l : List α} {c : α} (hp : l.Pairwise (fun a b => key a ≠ key b))
    (hc : c ∈ l) : l.find? (fun x => key x == key c) = some c := by
  induction l with
  | nil => cases hc
  | cons a t ih =>
    have hp' := List.pairwise_cons.1 hp
    rcases List.mem_cons.1 hc with rfl | hct
    · rw [List.find?_cons_of_pos _ (by simp)]
    · have hne : key a ≠ key c := hp'.1 c hct
      rw [List.find?_cons_of_neg _ (by simpa using hne)]
      exact ih hp'.2 hct

/-- C7: Company.get fails with NotFoundError when no company has the
handle; otherwise (under the handle primary-key invariant) it returns the
company row together with the list of exactly the jobs whose
companyHandle equals that handle — a list that is empty (never null) when
the company has no jobs. -/
theorem company_get_correct (s : DBState) (h : String) :
    ((∀ c ∈ s.companies, c.handle ≠ h) →
      Company.get h s = .error (.notFound ("No company: " ++ h))) ∧
    (WfState s → ∀ c ∈ s.companies, c.handle = h →
      Company.get h s = .ok
        { handle := h, name := c.name, description := c.description,
          numEmployees := c.numEmployees, logoUrl := c.logoUrl,
          jobs := s.jobs.filter (fun j => j.companyHandle == h) }) := by
  constructor
  · intro hno
    have hfil : s.companies.filter (fun c => c.handle == h) = [] := by
      rw [List.filter_eq_nil_iff]
      intro x hx hxh
      exact hno x hx (beq_iff_eq.1 hxh)
    simp only [Company.get, companyJoinRows, hfil, List.flatMap_nil]
  · intro hwf c hc hch
    subst hch
    have hfil : s.companies.filter (fun x => x.handle == c.handle) = [c] :=
      filter_key_eq_of_pairwise (fun x => x.handle) hwf.1 hc
    cases hjs : s.jobs.filter (fun j => j.companyHandle == c.handle) with
    | nil =>
      simp only [Company.get, companyJoinRows, hfil, List.flatMap_cons,
        List.flatMap_nil, List.append_nil, hjs, List.isEmpty_nil, if_pos]
    | cons x xs =>
      simp only [Company.get, companyJoinRows, hfil, List.flatMap_cons,
        List.flatMap_nil, List.append_nil, hjs, List.isEmpty_cons,
        Bool.false_eq_true, if_false, List.map_cons, List.map_map]
      have hid : ((fun r : CompanyRec × Option JobRec => r.2.getD nullJobRow) ∘
          fun j => (c, some j)) = id := by
        funext j
        rfl
      rw [hid, List.map_id]
      rfl

/-- A second company without any job, used to witness the empty-jobs-list
case of Company.get. -/
def lonelyCompany : CompanyRec :=
  { handle := "c0", name := "Zeta", description := "", numEmployees := none,
    logoUrl := none }

/-- A store with two companies in which only "c1" has a job. -/
def twoCompanyState : DBState :=
  { companies := [sampleCompany, lonelyCompany], jobs := [sampleJob],
    nextJobId := 2 }

/-- Witness for C7: a missing handle yields NotFoundError; "c1" comes back
with its one job; the job-less "c0" comes back with the empty list. -/
theorem company_get_correct_witness :
    Company.get "ghost" sampleState =
      .error (.notFound ("No company: " ++ "ghost")) ∧
    Company.get "c1" twoCompanyState = .ok
      { handle := "c1", name := "Acme", description := "maker",
        numEmployees := some 10, logoUrl := none,
        jobs := twoCompanyState.jobs.filter
          (fun j => j.companyHandle == "c1") } ∧
    Company.get "c0" twoCompanyState = .ok
      { handle := "c0", name := "Zeta", description := "",
        numEmployees := none, logoUrl := none,
        jobs := twoCompanyState.jobs.filter
          (fun j => j.companyHandle == "c0") } :=
  ⟨(company_get_correct sampleState "ghost").1 (by decide),
   (company_get_correct twoCompanyState "c1").2 ⟨by decide, by decide⟩
     sampleCompany (by decide) rfl,
   (company_get_correct twoCompanyState "c0").2 ⟨by decide, by decide⟩
     lonelyCompany (by decide) rfl⟩

/-- No SET assignment ever writes the handle column, whatever the column
name or value. -/
theorem applyColC_handle (c : CompanyRec) (col : String) (v : Value) :
    (applyColC c col v).handle = c.handle := by
  unfold applyColC
  split <;> rfl

/-- A SET assignment to a column other than name leaves name unchanged. -/
theorem applyColC_name (c : CompanyRec) (col : String) (v : Value)
    (h : col ≠ "name") : (applyColC c col v).name = c.name := by
  unfold applyColC
  split <;> first | rfl | exact absurd rfl h

/-- A SET assignment to a column other than description leaves description
unchanged. -/
theorem applyColC_description (c : CompanyRec) (col : String) (v : Value)
    (h : col ≠ "description") :
    (applyColC c col v).description = c.description := by
  unfold applyColC
  split <;> first | rfl | exact absurd rfl h

/-- A SET assignment to a column other than num_employees leaves
num_employees unchanged. -/
theorem applyColC_numEmployees (c : CompanyRec) (col : String) (v : Value)
    (h : col ≠ "num_employees") :
    (applyColC c col v).numEmployees = c.numEmployees := by
  unfold applyColC
  split <;> first | rfl | exact absurd rfl h

/-- A SET assignment to a column other than logo_url leaves logo_url
unchanged. -/
theorem applyColC_logoUrl (c : CompanyRec) (col : String) (v : Value)
    (h : col ≠ "logo_url") : (applyColC c col v).logoUrl = c.logoUrl := by
  unfold applyColC
  split <;> first | rfl | exact absurd rfl h

/-- A valid company update entry names one of the four updatable fields. -/
theorem validCompanyKV_key {k : String} {v : Value}
    (h : validCompanyKV (k, v) = true) :
    k = "name" ∨ k = "description" ∨ k = "numEmployees" ∨ k = "logoUrl" := by
  unfold validCompanyKV at h
  split at h <;> simp_all

/-- A whole SET clause never writes the handle column. -/
theorem applyUpdateC_handle (data : List (String × Value)) (c : CompanyRec) :
    (applyUpdateC data c).handle = c.handle := by
  induction data generalizing c with
  | nil => rfl
  | cons kv t ih =>
    exact (ih (applyColC c (storageName companyJsToSql kv.1) kv.2)).trans
      (applyColC_handle _ _ _)

/-- One valid SET assignment touches only the storage column of its own
key: every other company field keeps its value. -/
theorem applyColC_valid_fields {k : String} (v : Value) (c : CompanyRec)
    (hk : k = "name" ∨ k = "description" ∨ k = "numEmployees" ∨ k = "logoUrl") :
    (k ≠ "name" →
      (applyColC c (storageName companyJsToSql k) v).name = c.name) ∧
    (k ≠ "description" →
      (applyColC c (storageName companyJsToSql k) v).description = c.description) ∧
    (k ≠ "numEmployees" →
      (applyColC c (storageName companyJsToSql k) v).numEmployees = c.numEmployees) ∧
    (k ≠ "logoUrl" →
      (applyColC c (storageName companyJsToSql k) v).logoUrl = c.logoUrl) := by
  rcases hk with rfl | rfl | rfl | rfl <;>
    refine ⟨?_, ?_, ?_, ?_⟩ <;>
    intro h <;>
    first
      | exact absurd rfl h
      | exact applyColC_name _ _ _ (by decide)
      | exact applyColC_description _ _ _ (by decide)
      | exact applyColC_numEmployees _ _ _ (by decide)
      | exact applyColC_logoUrl _ _ _ (by decide)

/-- The whole SET clause of a valid partial update leaves every company
field whose key is absent from the data unchanged. -/
theorem applyUpdateC_frame (data : List (String × Value)) (c : CompanyRec)
    (hv : ∀ kv ∈ data, validCompanyKV kv = true) :
    ("name" ∉ data.map Prod.fst → (applyUpdateC data c).name = c.name) ∧
    ("description" ∉ data.map Prod.fst →
      (applyUpdateC data c).description = c.description) ∧
    ("numEmployees" ∉ data.map Prod.fst →
      (applyUpdateC data c).numEmployees = c.numEmployees) ∧
    ("logoUrl" ∉ data.map Prod.fst →
      (applyUpdateC data c).logoUrl = c.logoUrl) := by
  induction data generalizing c with
  | nil => simp [applyUpdateC]
  | cons kv t ih =>
    obtain ⟨k, v⟩ := kv
    have hkv := hv (k, v) (List.mem_cons_self _ _)
    have ht : ∀ x ∈ t, validCompanyKV x = true := fun x hx =>
      hv x (List.mem_cons_of_mem _ hx)
    have hc' := applyColC_valid_fields v c (validCompanyKV_key hkv)
    have H := ih (applyColC c (storageName companyJsToSql k) v) ht
    have hstep : applyUpdateC ((k, v) :: t) c =
        applyUpdateC t (applyColC c (storageName companyJsToSql k) v) := rfl
    rw [hstep]
    refine ⟨?_, ?_, ?_, ?_⟩ <;>
      (intro hmem
       rw [List.map_cons, List.mem_cons] at hmem
       push_neg at hmem)
    · exact (H.1 hmem.2).trans (hc'.1 (Ne.symm hmem.1))
    · exact (H.2.1 hmem.2).trans (hc'.2.1 (Ne.symm hmem.1))
    · exact (H.2.2.1 hmem.2).trans (hc'.2.2.1 (Ne.symm hmem.1))
    · exact (H.2.2.2 hmem.2).trans (hc'.2.2.2 (Ne.symm hmem.1))

/-- No SET assignment ever writes the id column. -/
theorem applyColJ_id (j : JobRec) (col : String) (v : Value) :
    (applyColJ j col v).id = j.id := by
  unfold applyColJ
  split <;> rfl

/-- No SET assignment ever writes the company_handle column. -/
theorem applyColJ_companyHandle (j : JobRec) (col : String) (v : Value) :
    (applyColJ j col v).companyHandle = j.companyHandle := by
  unfold applyColJ
  split <;> rfl

/-- A SET assignment to a column other than title leaves title
unchanged. -/
theorem applyColJ_title (j : JobRec) (col : String) (v : Value)
    (h : col ≠ "title") : (applyColJ j col v).title = j.title := by
  unfold applyColJ
  split <;> first | rfl | exact absurd rfl h

/-- A SET assignment to a column other than salary leaves salary
unchanged. -/
theorem applyColJ_salary (j : JobRec) (col : String) (v : Value)
    (h : col ≠ "salary") : (applyColJ j col v).salary = j.salary := by
  unfold applyColJ
  split <;> first | rfl | exact absurd rfl h

/-- A SET assignment to a column other than equity leaves equity
unchanged. -/
theorem applyColJ_equity (j : JobRec) (col : String) (v : Value)
    (h : col ≠ "equity") : (applyColJ j col v).equity = j.equity := by
  unfold applyColJ
  split <;> first | rfl | exact absurd rfl h

/-- A valid job update entry names one of the three updatable fields. -/
theorem validJobKV_key {k : String} {v : Value}
    (h : validJobKV (k, v) = true) :
    k = "title" ∨ k = "salary" ∨ k = "equity" := by
  unfold validJobKV at h
  split at h <;> simp_all

/-- A whole SET clause never writes the id column. -/
theorem applyUpdateJ_id (data : List (String × Value)) (j : JobRec) :
    (applyUpdateJ data j).id = j.id := by
  induction data generalizing j with
  | nil => rfl
  | cons kv t ih =>
    exact (ih (applyColJ j (storageName [] kv.1) kv.2)).trans
      (applyColJ_id _ _ _)

/-- A whole SET clause never writes the company_handle column. -/
theorem applyUpdateJ_companyHandle (data : List (String × Value))
    (j : JobRec) : (applyUpdateJ data j).companyHandle = j.companyHandle := by
  induction data generalizing j with
  | nil => rfl
  | cons kv t ih =>
    exact (ih (applyColJ j (storageName [] kv.1) kv.2)).trans
      (applyColJ_companyHandle _ _ _)

/-- The whole SET clause of a valid partial update leaves every job field
whose key is absent from the data unchanged. -/
theorem applyUpdateJ_frame (data : List (String × Value)) (j : JobRec)
    (hv : ∀ kv ∈ data, validJobKV kv = true) :
    ("title" ∉ data.map Prod.fst → (applyUpdateJ data j).title = j.title) ∧
    ("salary" ∉ data.map Prod.fst → (applyUpdateJ data j).salary = j.salary) ∧
    ("equity" ∉ data.map Prod.fst → (applyUpdateJ data j).equity = j.equity) := by
  induction data generalizing j with
  | nil => simp [applyUpdateJ]
  | cons kv t ih =>
    obtain ⟨k, v⟩ := kv
    have hkv := hv (k, v) (List.mem_cons_self _ _)
    have ht : ∀ x ∈ t, validJobKV x = true := fun x hx =>
      hv x (List.mem_cons_of_mem _ hx)
    have H := ih (applyColJ j (storageName [] k) v) ht
    have hstep : applyUpdateJ ((k, v) :: t) j =
        applyUpdateJ t (applyColJ j (storageName [] k) v) := rfl
    have hc' : (k ≠ "title" →
        (applyColJ j (storageName [] k) v).title = j.title) ∧
        (k ≠ "salary" → (applyColJ j (storageName [] k) v).salary = j.salary) ∧
        (k ≠ "equity" → (applyColJ j (storageName [] k) v).equity = j.equity) := by
      rcases validJobKV_key hkv with rfl | rfl | rfl <;>
        refine ⟨?_, ?_, ?_⟩ <;>
        intro h <;>
        first
          | exact absurd rfl h
          | exact applyColJ_title _ _ _ (by decide)
          | exact applyColJ_salary _ _ _ (by decide)
          | exact applyColJ_equity _ _ _ (by decide)
    rw [hstep]
    refine ⟨?_, ?_, ?_⟩ <;>
      (intro hmem
       rw [List.map_cons, List.mem_cons] at hmem
       push_neg at hmem)
    · exact (H.1 hmem.2).trans (hc'.1 (Ne.symm hmem.1))
    · exact (H.2.1 hmem.2).trans (hc'.2.1 (Ne.symm hmem.1))
    · exact (H.2.2 hmem.2).trans (hc'.2.2 (Ne.symm hmem.1))

/-- Two rows of a key-unique table with the same key are the same row. -/
theorem key_eq_unique {α κ : Type} [DecidableEq κ] (key : α → κ) {l : List α}
    (hp : l.Pairwise (fun a b => key a ≠ key b)) {x c : α}
    (hx : x ∈ l) (hc : c ∈ l) (hk : key x = key c) : x = c := by
  induction l with
  | nil => cases hx
  | cons a t ih =>
    have hp' := List.pairwise_cons.1 hp
    rcases List.mem_cons.1 hx with rfl | hxt
    · rcases List.mem_cons.1 hc with rfl | hct
      · rfl
      · exact absurd hk (hp'.1 c hct)
    · rcases List.mem_cons.1 hc with rfl | hct
      · exact absurd hk.symm (hp'.1 x hxt)
      · exact ih hp'.2 hxt hct

/-- On non-empty data, sqlForPartialUpdate succeeds with the fragment list
and the parallel values. -/
theorem sqlForPartialUpdate_ok (data : List (String × Value))
    (jsToSql : List (String × String)) (h : data ≠ []) :
    sqlForPartialUpdate data jsToSql =
      .ok { setCols := String.intercalate ", "
              (data.mapIdx (fun idx kv => assignFragment jsToSql idx kv.1)),
            values := data.map (fun kv => kv.2) } := by
  rw [sqlForPartialUpdate, if_neg (by simpa [List.isEmpty_iff] using h)]

/-- Shape of a successful Company.update on a stored row, under the
primary-key invariant: the returned record is the row with the SET clause
applied, and in the table only rows with that handle are rewritten. -/
theorem company_update_ok (s : DBState) (data : List (String × Value))
    (hwf : WfState s) (hne : data ≠ []) {c : CompanyRec}
    (hc : c ∈ s.companies) :
    Company.update c.handle data s =
      (.ok (applyUpdateC data c),
       { s with companies := (s.companies.map
          (fun x => if x.handle == c.handle then applyUpdateC data c else x)) }) := by
  have hsql := sqlForPartialUpdate_ok data companyJsToSql hne
  have hfind : s.companies.find? (fun x => x.handle == c.handle) = some c :=
    find_key_eq_of_pairwise (fun x => x.handle) hwf.1 hc
  have hmap : s.companies.map
      (fun x => if x.handle == c.handle then applyUpdateC data x else x) =
      s.companies.map
        (fun x => if x.handle == c.handle then applyUpdateC data c else x) := by
    apply List.map_congr_left
    intro x hx
    cases hxc : x.handle == c.handle with
    | true =>
      have hxeq : x = c :=
        key_eq_unique (fun y => y.handle) hwf.1 hx hc (beq_iff_eq.1 hxc)
      simp [hxeq]
    | false => simp
  simp only [Company.update, hsql, hfind, hmap]

/-- Shape of a successful Job.update on a stored row, under the
primary-key invariant. -/
theorem job_update_ok (s : DBState) (data : List (String × Value))
    (hwf : WfState s) (hne : data ≠ []) {j : JobRec} (hj : j ∈ s.jobs) :
    Job.update j.id data s =
      (.ok (applyUpdateJ data j),
       { s with jobs := (s.jobs.map
          (fun x => if x.id == j.id then applyUpdateJ data j else x)) }) := by
  have hsql := sqlForPartialUpdate_ok data [] hne
  have hfind : s.jobs.find? (fun x => x.id == j.id) = some j :=
    find_key_eq_of_pairwise (fun y => y.id) hwf.2 hj
  have hmap : s.jobs.map
      (fun x => if x.id == j.id then applyUpdateJ data x else x) =
      s.jobs.map
        (fun x => if x.id == j.id then applyUpdateJ data j else x) := by
    apply List.map_congr_left
    intro x hx
    cases hxc : x.id == j.id with
    | true =>
      have hxeq : x = j :=
        key_eq_unique (fun y => y.id) hwf.2 hx hj (beq_iff_eq.1 hxc)
      simp [hxeq]
    | false => simp
  simp only [Job.update, hsql, hfind, hmap]

/-- C8: for every stored record and every non-empty partial update drawn
from the updatable fields, update rewrites only the rows carrying the
target identifier; the returned record keeps the identifier
(and, for jobs, the company handle) and keeps every field whose key is
absent from the data; all other rows are mapped to themselves. -/
theorem update_changes_only_named_fields (s : DBState)
    (data : List (String × Value)) (hwf : WfState s) (hne : data ≠ []) :
    ((∀ kv ∈ data, validCompanyKV kv = true) → ∀ c ∈ s.companies, ∃ c',
      Company.update c.handle data s =
        (.ok c', { s with companies := (s.companies.map
          (fun x => if x.handle == c.handle then c' else x)) }) ∧
      c'.handle = c.handle ∧
      ("name" ∉ data.map Prod.fst → c'.name = c.name) ∧
      ("description" ∉ data.map Prod.fst → c'.description = c.description) ∧
      ("numEmployees" ∉ data.map Prod.fst → c'.numEmployees = c.numEmployees) ∧
      ("logoUrl" ∉ data.map Prod.fst → c'.logoUrl = c.logoUrl)) ∧
    ((∀ kv ∈ data, validJobKV kv = true) → ∀ j ∈ s.jobs, ∃ j',
      Job.update j.id data s =
        (.ok j', { s with jobs := (s.jobs.map
          (fun x => if x.id == j.id then j' else x)) }) ∧
      j'.id = j.id ∧ j'.companyHandle = j.companyHandle ∧
      ("title" ∉ data.map Prod.fst → j'.title = j.title) ∧
      ("salary" ∉ data.map Prod.fst → j'.salary = j.salary) ∧
      ("equity" ∉ data.map Prod.fst → j'.equity = j.equity)) := by
  constructor
  · intro hv c hc
    exact ⟨applyUpdateC data c, company_update_ok s data hwf hne hc,
      applyUpdateC_handle data c, (applyUpdateC_frame data c hv).1,
      (applyUpdateC_frame data c hv).2.1, (applyUpdateC_frame data c hv).2.2.1,
      (applyUpdateC_frame data c hv).2.2.2⟩
  · intro hv j hj
    exact ⟨applyUpdateJ data j, job_update_ok s data hwf hne hj,
      applyUpdateJ_id data j, applyUpdateJ_companyHandle data j,
      (applyUpdateJ_frame data j hv).1, (applyUpdateJ_frame data j hv).2.1,
      (applyUpdateJ_frame data j hv).2.2⟩

/-- Witness for C8: updating only the description of "c1" on the sample
store keeps its handle, name, numEmployees and logoUrl, and rewrites only
the row with that handle. -/
theorem update_changes_only_named_fields_witness :
    ∃ c', Company.update sampleCompany.handle
        [("description", Value.str "fixer")] sampleState =
      (.ok c', { sampleState with companies := (sampleState.companies.map
        (fun x => if x.handle == sampleCompany.handle then c' else x)) }) ∧
    c'.handle = sampleCompany.handle ∧
    ("name" ∉ [("description", Value.str "fixer")].map Prod.fst →
      c'.name = sampleCompany.name) ∧
    ("description" ∉ [("description", Value.str "fixer")].map Prod.fst →
      c'.description = sampleCompany.description) ∧
    ("numEmployees" ∉ [("description", Value.str "fixer")].map Prod.fst →
      c'.numEmployees = sampleCompany.numEmployees) ∧
    ("logoUrl" ∉ [("description", Value.str "fixer")].map Prod.fst →
      c'.logoUrl = sampleCompany.logoUrl) :=
  (update_changes_only_named_fields sampleState
    [("description", Value.str "fixer")] ⟨by decide, by decide⟩
    (by decide)).1 (by decide) sampleCompany (by decide)

/-- Counterexample to C9 as stated: updating a nonexistent handle with an
EMPTY partial mapping fails with the helper's BadRequestError "No data",
not with NotFoundError — sqlForPartialUpdate throws before any lookup. -/
theorem update_empty_data_error_precedence :
    (∀ c ∈ sampleState.companies, c.handle ≠ "ghost") ∧
    (Company.update "ghost" [] sampleState).1 =
      .error (.badRequest "No data") ∧
    (Company.update "ghost" [] sampleState).1 ≠
      .error (.notFound ("No company: " ++ "ghost")) :=
  ⟨by decide, rfl, fun h => Err.noConfusion (Except.error.inj h)⟩

/-- C9 (amended): get and remove on a nonexistent identifier always fail
with NotFoundError and hand the store back unchanged; update does too
provided the partial data is non-empty and drawn from the updatable
fields — with empty data the helper's BadRequestError preempts the
lookup. -/
theorem nonexistent_identifier_notfound (s : DBState) (h : String)
    (id : Nat) :
    ((∀ c ∈ s.companies, c.handle ≠ h) →
      Company.get h s = .error (.notFound ("No company: " ++ h)) ∧
      Company.remove h s = (.error (.notFound ("No company: " ++ h)), s) ∧
      (∀ data, data ≠ [] → (∀ kv ∈ data, validCompanyKV kv = true) →
        Company.update h data s =
          (.error (.notFound ("No company: " ++ h)), s))) ∧
    ((∀ j ∈ s.jobs, j.id ≠ id) →
      Job.get id s = .error (.notFound ("No job: " ++ toString id)) ∧
      Job.remove id s = (.error (.notFound ("No job: " ++ toString id)), s) ∧
      (∀ data, data ≠ [] → (∀ kv ∈ data, validJobKV kv = true) →
        Job.update id data s =
          (.error (.notFound ("No job: " ++ toString id)), s))) := by
  constructor
  · intro hno
    have hfil : s.companies.filter (fun c => c.handle == h) = [] := by
      rw [List.filter_eq_nil_iff]
      intro x hx hxh
      exact hno x hx (beq_iff_eq.1 hxh)
    have hany : s.companies.any (fun c => c.handle == h) = false := by
      simp only [List.any_eq_false, beq_iff_eq]
      intro c hc
      exact hno c hc
    have hfind : s.companies.find? (fun c => c.handle == h) = none := by
      rw [List.find?_eq_none]
      intro x hx hxh
      exact hno x hx (beq_iff_eq.1 hxh)
    refine ⟨?_, ?_, ?_⟩
    · simp only [Company.get, companyJoinRows, hfil, List.flatMap_nil]
    · simp [Company.remove, hany]
    · intro data hne hv
      have hsql := sqlForPartialUpdate_ok data companyJsToSql hne
      simp only [Company.update, hsql, hfind]
  · intro hno
    have hany : s.jobs.any (fun j => j.id == id) = false := by
      simp only [List.any_eq_false, beq_iff_eq]
      intro j hj
      exact hno j hj
    have hfind : s.jobs.find? (fun j => j.id == id) = none := by
      rw [List.find?_eq_none]
      intro x hx hxh
      exact hno x hx (beq_iff_eq.1 hxh)
    refine ⟨?_, ?_, ?_⟩
    · simp only [Job.get, hfind]
    · simp [Job.remove, hany]
    · intro data hne hv
      have hsql := sqlForPartialUpdate_ok data [] hne
      simp only [Job.update, hsql, hfind]

/-- Witness for C9 (amended) on the sample store with the absent handle
"ghost" and the absent id 99. -/
theorem nonexistent_identifier_notfound_witness :
    Company.get "ghost" sampleState =
      .error (.notFound ("No company: " ++ "ghost")) ∧
    Company.remove "ghost" sampleState =
      (.error (.notFound ("No company: " ++ "ghost")), sampleState) ∧
    Company.update "ghost" [("name", Value.str "Nu")] sampleState =
      (.error (.notFound ("No company: " ++ "ghost")), sampleState) ∧
    Job.get 99 sampleState = .error (.notFound ("No job: " ++ toString 99)) ∧
    Job.remove 99 sampleState =
      (.error (.notFound ("No job: " ++ toString 99)), sampleState) ∧
    Job.update 99 [("title", Value.str "t2")] sampleState =
      (.error (.notFound ("No job: " ++ toString 99)), sampleState) := by
  have H := nonexistent_identifier_notfound sampleState "ghost" 99
  have HC := H.1 (by decide)
  have HJ := H.2 (by decide)
  exact ⟨HC.1, HC.2.1, HC.2.2 _ (by decide) (by decide), HJ.1, HJ.2.1,
    HJ.2.2 _ (by decide) (by decide)⟩

/-- Mapping a table through a key-preserving rewrite keeps the key column
pairwise distinct. -/
theorem pairwise_key_map {α κ : Type} (key : α → κ) (f : α → α) (l : List α)
    (hf : ∀ x ∈ l, key (f x) = key x)
    (hp : l.Pairwise (fun a b => key a ≠ key b)) :
    (l.map f).Pairwise (fun a b => key a ≠ key b) := by
  induction l with
  | nil => simp
  | cons a t ih =>
    rw [List.map_cons, List.pairwise_cons]
    have hp' := List.pairwise_cons.1 hp
    constructor
    · intro b hb
      obtain ⟨x, hx, rfl⟩ := List.mem_map.1 hb
      rw [hf a (List.mem_cons_self _ _), hf x (List.mem_cons_of_mem _ hx)]
      exact hp'.1 x hx
    · exact ih (fun x hx => hf x (List.mem_cons_of_mem _ hx)) hp'.2

/-- Shape of a successful Company.get on a stored row, under the
primary-key invariant: the row plus exactly its jobs. -/
theorem company_get_ok (s : DBState) (hwf : WfState s) {c : CompanyRec}
    (hc : c ∈ s.companies) :
    Company.get c.handle s = .ok
      { handle := c.handle, name := c.name, description := c.description,
        numEmployees := c.numEmployees, logoUrl := c.logoUrl,
        jobs := s.jobs.filter (fun j => j.companyHandle == c.handle) } := by
  have hfil : s.companies.filter (fun x => x.handle == c.handle) = [c] :=
    filter_key_eq_of_pairwise (fun x => x.handle) hwf.1 hc
  cases hjs : s.jobs.filter (fun j => j.companyHandle == c.handle) with
  | nil =>
    simp only [Company.get, companyJoinRows, hfil, List.flatMap_cons,
      List.flatMap_nil, List.append_nil, hjs, List.isEmpty_nil, if_pos]
  | cons x xs =>
    simp only [Company.get, companyJoinRows, hfil, List.flatMap_cons,
      List.flatMap_nil, List.append_nil, hjs, List.isEmpty_cons,
      Bool.false_eq_true, if_false, List.map_cons, List.map_map]
    have hid : ((fun r : CompanyRec × Option JobRec => r.2.getD nullJobRow) ∘
        fun j => (c, some j)) = id := by
      funext j
      rfl
    rw [hid, List.map_id]
    rfl

/-- Shape of a successful Job.get on a stored row, under the primary-key
invariant. -/
theorem job_get_ok (s : DBState) (hwf : WfState s) {j : JobRec}
    (hj : j ∈ s.jobs) : Job.get j.id s = .ok j := by
  simp only [Job.get, find_key_eq_of_pairwise (fun y => y.id) hwf.2 hj]

/-- C10: every successful update returns the full updated record: for a
non-empty partial update drawn from the updatable, well-typed fields (the
region where the SET-clause model is exact — an unknown or mistyped
column would be rejected by the store, and a real handle/id column write
is outside the operation's contract), the entity fields of update's
return coincide with what get on the same identifier reads back from the
updated store (for a company, get additionally reports the associated
jobs list, whose rows update never touches). -/
theorem update_then_get_roundtrip (s : DBState)
    (data : List (String × Value)) (hwf : WfState s) (hne : data ≠ []) :
    ((∀ kv ∈ data, validCompanyKV kv = true) → ∀ c ∈ s.companies, ∃ c' s',
      Company.update c.handle data s = (.ok c', s') ∧
      Company.get c.handle s' = .ok
        { handle := c.handle, name := c'.name, description := c'.description,
          numEmployees := c'.numEmployees, logoUrl := c'.logoUrl,
          jobs := s'.jobs.filter (fun j => j.companyHandle == c.handle) }) ∧
    ((∀ kv ∈ data, validJobKV kv = true) → ∀ j ∈ s.jobs, ∃ j' s',
      Job.update j.id data s = (.ok j', s') ∧
      Job.get j'.id s' = .ok j') := by
  constructor
  · intro hv c hc
    have hch : (applyUpdateC data c).handle = c.handle :=
      applyUpdateC_handle data c
    have hpw : (s.companies.map
        (fun x => if x.handle == c.handle then applyUpdateC data c
          else x)).Pairwise (fun a b => a.handle ≠ b.handle) := by
      apply pairwise_key_map (fun y : CompanyRec => y.handle)
      · intro x hx
        cases hxc : x.handle == c.handle with
        | true => simp [hxc, hch, beq_iff_eq.1 hxc]
        | false => simp [hxc]
      · exact hwf.1
    have hwf' : WfState { s with companies := (s.companies.map
        (fun x => if x.handle == c.handle then applyUpdateC data c else x)) } :=
      ⟨hpw, hwf.2⟩
    have hc' : applyUpdateC data c ∈ s.companies.map
        (fun x => if x.handle == c.handle then applyUpdateC data c else x) :=
      List.mem_map.2 ⟨c, hc, by simp⟩
    have hget := company_get_ok _ hwf' hc'
    rw [hch] at hget
    exact ⟨applyUpdateC data c, _, company_update_ok s data hwf hne hc, hget⟩
  · intro hv j hj
    have hjid : (applyUpdateJ data j).id = j.id := applyUpdateJ_id data j
    have hpw : (s.jobs.map
        (fun x => if x.id == j.id then applyUpdateJ data j
          else x)).Pairwise (fun a b => a.id ≠ b.id) := by
      apply pairwise_key_map (fun y : JobRec => y.id)
      · intro x hx
        cases hxc : x.id == j.id with
        | true => simp [hxc, hjid, beq_iff_eq.1 hxc]
        | false => simp [hxc]
      · exact hwf.2
    have hwf' : WfState { s with jobs := (s.jobs.map
        (fun x => if x.id == j.id then applyUpdateJ data j else x)) } :=
      ⟨hwf.1, hpw⟩
    have hj' : applyUpdateJ data j ∈ s.jobs.map
        (fun x => if x.id == j.id then applyUpdateJ data j else x) :=
      List.mem_map.2 ⟨j, hj, by simp⟩
    exact ⟨applyUpdateJ data j, _, job_update_ok s data hwf hne hj,
      job_get_ok _ hwf' hj'⟩

/-- Witness for C10 on the sample store, renaming the company and
retitling the job. -/
theorem update_then_get_roundtrip_witness :
    (∀ c ∈ sampleState.companies, ∃ c' s',
      Company.update c.handle [("name", Value.str "Acme2")] sampleState =
        (.ok c', s') ∧
      Company.get c.handle s' = .ok
        { handle := c.handle, name := c'.name, description := c'.description,
          numEmployees := c'.numEmployees, logoUrl := c'.logoUrl,
          jobs := s'.jobs.filter (fun j => j.companyHandle == c.handle) }) ∧
    (∀ j ∈ sampleState.jobs, ∃ j' s',
      Job.update j.id [("title", Value.str "j1b")] sampleState =
        (.ok j', s') ∧
      Job.get j'.id s' = .ok j') :=
  ⟨(update_then_get_roundtrip sampleState [("name", Value.str "Acme2")]
      ⟨by decide, by decide⟩ (by decide)).1 (by decide),
   (update_then_get_roundtrip sampleState [("title", Value.str "j1b")]
      ⟨by decide, by decide⟩ (by decide)).2 (by decide)⟩

/-- Merging one present-key slot with an absent one evaluates like the
conjunction of the two slots. -/
theorem optClause_all_merge {α β : Type} (fo go : Option α) (mk : α → β)
    (p : β → Bool) (h : fo = none ∨ go = none) :
    (optClause (fo <|> go) mk).all p =
      ((optClause fo mk).all p && (optClause go mk).all p) := by
  rcases h with rfl | rfl
  · rfl
  · cases fo <;> simp [optClause]

/-- Same as optClause_all_merge for the hasEquity slot. -/
theorem equityClause_all_merge (fo go : Option Bool) (p : JClause → Bool)
    (h : fo = none ∨ go = none) :
    (equityClause (fo <|> go)).all p =
      ((equityClause fo).all p && (equityClause go).all p) := by
  rcases h with rfl | rfl
  · rfl
  · cases fo with
    | none => rfl
    | some b => cases b <;> simp [equityClause]

/-- For key-disjoint company filters, the merged clause list holds at a
row exactly when both original clause lists do. -/
theorem companyClauses_merge_all (f g : CompanyFilter) (hd : disjointCF f g)
    (c : CompanyRec) :
    (companyClauses (mergeCF f g)).all (fun p => p.eval c) =
      ((companyClauses f).all (fun p => p.eval c) &&
        (companyClauses g).all (fun p => p.eval c)) := by
  obtain ⟨h1, h2, h3⟩ := hd
  simp only [companyClauses, mergeCF, List.all_append,
    optClause_all_merge _ _ _ _ h1, optClause_all_merge _ _ _ _ h2,
    optClause_all_merge _ _ _ _ h3]
  simp [Bool.and_assoc, Bool.and_comm, Bool.and_left_comm]

/-- For key-disjoint job filters, the merged clause list holds at a row
exactly when both original clause lists do. -/
theorem jobClauses_merge_all (f g : JobFilter) (hd : disjointJF f g)
    (j : JobRec) :
    (jobClauses (mergeJF f g)).all (fun p => p.eval j) =
      ((jobClauses f).all (fun p => p.eval j) &&
        (jobClauses g).all (fun p => p.eval j)) := by
  obtain ⟨h1, h2, h3⟩ := hd
  simp only [jobClauses, mergeJF, List.all_append,
    optClause_all_merge _ _ _ _ h1, optClause_all_merge _ _ _ _ h2,
    equityClause_all_merge _ _ _ h3]
  simp [Bool.and_assoc, Bool.and_comm, Bool.and_left_comm]

/-- A slot of the merged filter is empty only if the first filter's slot
is. -/
theorem optClause_orElse_nil {α β : Type} (fo go : Option α) (mk : α → β)
    (h : optClause (fo <|> go) mk = []) : optClause fo mk = [] := by
  cases fo
  · rfl
  · simp [optClause] at h

/-- Same as optClause_orElse_nil for the hasEquity slot. -/
theorem equityClause_orElse_nil (fo go : Option Bool)
    (h : equityClause (fo <|> go) = []) : equityClause fo = [] := by
  cases fo with
  | none => rfl
  | some b =>
    cases b with
    | false => rfl
    | true => simp [equityClause] at h

/-- If one company filter produces clauses then so does the merge (the
merged query never degenerates to the empty WHERE). -/
theorem companyClauses_merge_nonempty (f g : CompanyFilter)
    (h : companyClauses f ≠ []) : companyClauses (mergeCF f g) ≠ [] := by
  rcases f with ⟨fn, fmin, fmax⟩
  cases fn with
  | some a =>
    intro hm
    simp [companyClauses, mergeCF, optClause, Option.orElse] at hm
  | none =>
    cases fmin with
    | some b =>
      intro hm
      simp [companyClauses, mergeCF, optClause, Option.orElse] at hm
    | none =>
      cases fmax with
      | some d =>
        intro hm
        simp [companyClauses, mergeCF, optClause, Option.orElse] at hm
      | none => exact absurd rfl h

/-- If one job filter produces clauses then so does the merge. -/
theorem jobClauses_merge_nonempty (f g : JobFilter)
    (h : jobClauses f ≠ []) : jobClauses (mergeJF f g) ≠ [] := by
  rcases f with ⟨ft, fsal, fheq⟩
  cases ft with
  | some a =>
    intro hm
    simp [jobClauses, mergeJF, optClause, equityClause, Option.orElse] at hm
  | none =>
    cases fsal with
    | some b =>
      intro hm
      simp [jobClauses, mergeJF, optClause, equityClause, Option.orElse] at hm
    | none =>
      cases fheq with
      | some hb =>
        cases hb with
        | true =>
          intro hm
          simp [jobClauses, mergeJF, optClause, equityClause,
            Option.orElse] at hm
        | false => exact absurd rfl h
      | none => exact absurd rfl h

/-- Company.findFiltered returns a list exactly when some clause was
pushed, and then the list is the name-ordered filtered table. -/
theorem company_findFiltered_ok_iff (f : CompanyFilter) (s : DBState)
    (l : List CompanyRec) :
    Company.findFiltered f s = .ok l ↔
      companyClauses f ≠ [] ∧
      l = List.insertionSort (fun a b => a.name ≤ b.name)
        (s.companies.filter
          (fun c => (companyClauses f).all (fun p => p.eval c))) := by
  rw [Company.findFiltered]
  cases hne : (companyClauses f).isEmpty with
  | true =>
    simp only [hne, if_true]
    constructor
    · intro h
      cases h
    · intro ⟨h1, h2⟩
      exact absurd (List.isEmpty_iff.1 hne) h1
  | false =>
    simp only [hne, Bool.false_eq_true, if_false]
    constructor
    · intro h
      exact ⟨fun hnil => by simp [hnil] at hne, (Except.ok.inj h).symm⟩
    · intro ⟨h1, h2⟩
      rw [h2]

/-- Job.findFiltered returns a list exactly when some clause was pushed,
and then the list is the id-ordered filtered table. -/
theorem job_findFiltered_ok_iff (f : JobFilter) (s : DBState)
    (l : List JobRec) :
    Job.findFiltered f s = .ok l ↔
      jobClauses f ≠ [] ∧
      l = List.insertionSort (fun a b => a.id ≤ b.id)
        (s.jobs.filter
          (fun j => (jobClauses f).all (fun p => p.eval j))) := by
  rw [Job.findFiltered]
  cases hne : (jobClauses f).isEmpty with
  | true =>
    simp only [hne, if_true]
    constructor
    · intro h
      cases h
    · intro ⟨h1, h2⟩
      exact absurd (List.isEmpty_iff.1 hne) h1
  | false =>
    simp only [hne, Bool.false_eq_true, if_false]
    constructor
    · intro h
      exact ⟨fun hnil => by simp [hnil] at hne, (Except.ok.inj h).symm⟩
    · intro ⟨h1, h2⟩
      rw [h2]

/-- C3 (amended): whenever findFiltered returns a list it is a subset of
findAll()'s; and whenever two key-disjoint filters each return a list,
the combined filter also returns a list holding exactly their
intersection.  (As literally stated the claim fails: with hasEquity=false
as one of the two keys, that key alone yields no result list at all —
see the counterexample.) -/
theorem findFiltered_subset_intersection (s : DBState) :
    (∀ (f : CompanyFilter) (l : List CompanyRec),
      Company.findFiltered f s = .ok l → ∀ x ∈ l, x ∈ Company.findAll s) ∧
    (∀ (f : JobFilter) (l : List JobRec),
      Job.findFiltered f s = .ok l → ∀ x ∈ l, x ∈ Job.findAll s) ∧
    (∀ (f g : CompanyFilter) (l1 l2 : List CompanyRec), disjointCF f g →
      Company.findFiltered f s = .ok l1 → Company.findFiltered g s = .ok l2 →
      ∃ l3, Company.findFiltered (mergeCF f g) s = .ok l3 ∧
        ∀ x, x ∈ l3 ↔ (x ∈ l1 ∧ x ∈ l2)) ∧
    (∀ (f g : JobFilter) (l1 l2 : List JobRec), disjointJF f g →
      Job.findFiltered f s = .ok l1 → Job.findFiltered g s = .ok l2 →
      ∃ l3, Job.findFiltered (mergeJF f g) s = .ok l3 ∧
        ∀ x, x ∈ l3 ↔ (x ∈ l1 ∧ x ∈ l2)) := by
  refine ⟨?_, ?_, ?_, ?_⟩
  · intro f l hl x hx
    obtain ⟨-, rfl⟩ := (company_findFiltered_ok_iff f s l).1 hl
    have hx' := (List.mem_insertionSort _).1 hx
    exact (List.mem_insertionSort _).2 (List.mem_filter.1 hx').1
  · intro f l hl x hx
    obtain ⟨-, rfl⟩ := (job_findFiltered_ok_iff f s l).1 hl
    have hx' := (List.mem_insertionSort _).1 hx
    exact (List.mem_insertionSort _).2 (List.mem_filter.1 hx').1
  · intro f g l1 l2 hd h1 h2
    obtain ⟨hne1, rfl⟩ := (company_findFiltered_ok_iff f s l1).1 h1
    obtain ⟨hne2, rfl⟩ := (company_findFiltered_ok_iff g s l2).1 h2
    refine ⟨_, (company_findFiltered_ok_iff (mergeCF f g) s _).2
      ⟨companyClauses_merge_nonempty f g hne1, rfl⟩, ?_⟩
    intro x
    simp only [List.mem_insertionSort, List.mem_filter,
      companyClauses_merge_all f g hd x, Bool.and_eq_true]
    tauto
  · intro f g l1 l2 hd h1 h2
    obtain ⟨hne1, rfl⟩ := (job_findFiltered_ok_iff f s l1).1 h1
    obtain ⟨hne2, rfl⟩ := (job_findFiltered_ok_iff g s l2).1 h2
    refine ⟨_, (job_findFiltered_ok_iff (mergeJF f g) s _).2
      ⟨jobClauses_merge_nonempty f g hne1, rfl⟩, ?_⟩
    intro x
    simp only [List.mem_insertionSort, List.mem_filter,
      jobClauses_merge_all f g hd x, Bool.and_eq_true]
    tauto

/-- Counterexample to C3 as stated: on the sample store the two-key job
filter (minSalary=0, hasEquity=false) returns a list, but applying the
key hasEquity=false alone pushes no clause and errors out on the invalid
empty WHERE — so the combined result cannot be "the intersection of the
results of applying each key alone". -/
theorem findFiltered_intersection_counterexample :
    Job.findFiltered
        { title := none, minSalary := some 0, hasEquity := some false }
        sampleState = .ok [sampleJob] ∧
    Job.findFiltered
        { title := none, minSalary := none, hasEquity := some false }
        sampleState = .error .storeError :=
  ⟨rfl, rfl⟩

/-- Witness for C3 (amended) on the sample store: a minEmployees filter
and a maxEmployees filter on companies, and a minSalary filter and a
hasEquity filter on jobs, each return a list; their merges return exactly
the intersections, and every returned row is in findAll(). -/
theorem findFiltered_subset_intersection_witness :
    (∀ x ∈ [sampleCompany], x ∈ Company.findAll sampleState) ∧
    (∀ x ∈ [sampleJob], x ∈ Job.findAll sampleState) ∧
    (∃ l3, Company.findFiltered
        (mergeCF { name := none, minEmployees := some 5, maxEmployees := none }
          { name := none, minEmployees := none, maxEmployees := some 20 })
        sampleState = .ok l3 ∧
      ∀ x, x ∈ l3 ↔ (x ∈ [sampleCompany] ∧ x ∈ [sampleCompany])) ∧
    (∃ l3, Job.findFiltered
        (mergeJF { title := none, minSalary := some 0, hasEquity := none }
          { title := none, minSalary := none, hasEquity := some true })
        sampleState = .ok l3 ∧
      ∀ x, x ∈ l3 ↔ (x ∈ [sampleJob] ∧ x ∈ [sampleJob])) := by
  have H := findFiltered_subset_intersection sampleState
  refine ⟨H.1 { name := none, minEmployees := some 5, maxEmployees := none }
      [sampleCompany] rfl,
    H.2.1 { title := none, minSalary := some 0, hasEquity := none }
      [sampleJob] rfl,
    H.2.2.1 _ _ [sampleCompany] [sampleCompany]
      ⟨Or.inl rfl, Or.inr rfl, Or.inl rfl⟩ rfl rfl,
    H.2.2.2 _ _ [sampleJob] [sampleJob]
      ⟨Or.inl rfl, Or.inr rfl, Or.inl rfl⟩ rfl rfl⟩
